import Mathlib

/-!
Verification of pykeio/osu-file-parser against its specification.

The Rust sources are shallowly embedded: strings are `String`/`List Char`,
nom-style combinators become total functions returning pairs or `Option`,
fallible functions return `Except`, and a Rust panic is a distinguished
outcome constructor.  Machine integers are `Nat`/`Int` with explicit range
checks where the Rust code checks them (`u8`/`i32` `FromStr`).
-/

deriving instance DecidableEq for Except

namespace OsuVerify

/-- Outcome of running a Rust function that may panic: either it panics
(`todo!`, `unreachable!`, `unwrap` on the wrong variant, ...) or it returns
a value. -/
inductive ROut (α : Type) where
  | panics : ROut α
  | returns : α → ROut α
deriving DecidableEq, Repr

/-- nom `multispace0` character class: space, tab, carriage return, line feed. -/
def isMultispace (c : Char) : Bool :=
  c = ' ' ∨ c = '\t' ∨ c = '\r' ∨ c = '\n'

/-- `span2 p l` splits `l` into the longest prefix whose characters satisfy
`p` and the remainder (`takeWhile`/`dropWhile` as one pass). -/
def span2 (p : Char → Bool) : List Char → List Char × List Char
  | [] => ([], [])
  | c :: cs =>
    if p c then
      let (a, b) := span2 p cs
      (c :: a, b)
    else ([], c :: cs)

/-- nom `take_till(p)`: consume until a character satisfies `p` (cannot fail). -/
def takeTill (p : Char → Bool) (cs : List Char) : List Char × List Char :=
  span2 (fun c => ¬ p c) cs

/-- nom `multispace0`: consume zero or more whitespace characters. -/
def multispace0 (cs : List Char) : List Char × List Char :=
  span2 isMultispace cs

/-- nom `tag(t)`: succeed with the rest of the input exactly when `t` is a
literal prefix of the input. -/
def tagP (t cs : List Char) : Option (List Char) :=
  if t.isPrefixOf cs then some (cs.drop t.length) else none

/-- Numeric value of a digit list, most significant first (the fold a decimal
integer parser performs). -/
def digitsVal (l : List Char) : Nat :=
  l.foldl (fun acc c => acc * 10 + (c.toNat - '0'.toNat)) 0

/-- Rust `u8::from_str`: an optional `+` sign, then one or more digits, value
at most 255. -/
def u8FromStr (s : String) : Option Nat :=
  let l := match s.data with
    | '+' :: r => r
    | l => l
  if l ≠ [] ∧ l.all Char.isDigit then
    if digitsVal l ≤ 255 then some (digitsVal l) else none
  else none

/-- Rust `i32::from_str`: an optional sign, then one or more digits, value
within the `i32` range. -/
def i32FromStr (s : String) : Option Int :=
  let (sign, l) : Int × List Char := match s.data with
    | '+' :: r => (1, r)
    | '-' :: r => (-1, r)
    | l => (1, l)
  if l ≠ [] ∧ l.all Char.isDigit then
    let v : Int := sign * (digitsVal l : Int)
    if -2147483648 ≤ v ∧ v ≤ 2147483647 then some v else none
  else none

/-- Split a character list at every occurrence of `sep`, keeping empty
pieces (the behaviour of Rust `str::split`). -/
def splitCharL (sep : Char) : List Char → List (List Char)
  | [] => [[]]
  | c :: cs =>
    if c = sep then [] :: splitCharL sep cs
    else
      match splitCharL sep cs with
      | h :: t => (c :: h) :: t
      | [] => [[c]]

/-- Strip one trailing carriage return, as Rust `str::lines` does on each
produced line. -/
def stripCrL (l : List Char) : String :=
  match l.getLast? with
  | some '\r' => String.mk l.dropLast
  | _ => String.mk l

/-- Rust `str::lines()` collected to a list: split at every `\n`; every
piece except the last was terminated by a `\n` and gets one trailing `\r`
stripped; the final unterminated piece is kept as-is, or dropped when
empty. -/
def rustLines (s : String) : List String :=
  let pieces := splitCharL '\n' s.data
  (pieces.take (pieces.length - 1)).map stripCrL ++
    (match pieces.getLast? with
     | some [] => []
     | some l => [String.mk l]
     | none => [])

/-- Rust `str::lines().count()` on a character list: the number of line
feeds, plus one more line when the text is nonempty and does not end in a
line feed. -/
def countLinesL (l : List Char) : Nat :=
  if l = [] then 0
  else l.count '\n' + (if l.getLast? = some '\n' then 0 else 1)

/-- Rust `str::trim` (the inputs in this development only use ASCII
whitespace). -/
def rustTrim (s : String) : String :=
  String.mk ((s.data.dropWhile isMultispace).reverse.dropWhile isMultispace |>.reverse)

/-- Rust `str::split_once(c)`: split at the first occurrence of `c`. -/
def splitOnce (c : Char) (s : String) : Option (String × String) :=
  let (pre, post) := takeTill (fun x => x = c) s.data
  match post with
  | [] => none
  | _ :: rest => some (String.mk pre, String.mk rest)

/-- Modelled from the spec: the repository's `Decimal` type (its defining
module `types.rs` is absent from `src/`).  Spec §4.2 requires a
fixed-point/decimal representation with full precision, not floating point:
a scaled integer mantissa, as in `rust_decimal`. -/
structure Decimal where
  mantissa : Int
  scale : Nat
deriving DecidableEq, Repr

/-- Decimal display: the mantissa with the decimal point inserted `scale`
digits from the right (zero-padded), mirroring `rust_decimal`'s `Display`. -/
def Decimal.toDisplay (d : Decimal) : String :=
  let sign := if d.mantissa < 0 then "-" else ""
  let digits := Nat.repr d.mantissa.natAbs
  if d.scale = 0 then sign ++ digits
  else
    let digits := if digits.length ≤ d.scale
      then String.mk (List.replicate (d.scale + 1 - digits.length) '0') ++ digits
      else digits
    let intPart := String.mk (digits.data.take (digits.length - d.scale))
    let fracPart := String.mk (digits.data.drop (digits.length - d.scale))
    sign ++ intPart ++ "." ++ fracPart

/-- Decimal parse: optional sign, integer digits, optionally a point and
fraction digits; the scale is the number of fraction digits (kept exactly,
so values round-trip). -/
def Decimal.fromStr (s : String) : Option Decimal :=
  let (sign, l) : Int × List Char := match s.data with
    | '+' :: r => (1, r)
    | '-' :: r => (-1, r)
    | l => (1, l)
  let (intPart, rest) := span2 Char.isDigit l
  if intPart = [] then none
  else match rest with
    | [] => some ⟨sign * (digitsVal intPart : Int), 0⟩
    | '.' :: frac =>
      if frac ≠ [] ∧ frac.all Char.isDigit then
        some ⟨sign * (digitsVal (intPart ++ frac) : Int), frac.length⟩
      else none
    | _ => none

/-! ## General section (`src/osu_file/general.rs`) -/

/-- Speed of the countdown before the first hit (`general.rs`). -/
inductive CountdownSpeed where
  | NoCountdown | Normal | Half | Double
deriving DecidableEq, Repr

/-- `impl Display for CountdownSpeed`. -/
def CountdownSpeed.toDisplay : CountdownSpeed → String
  | .NoCountdown => "0"
  | .Normal => "1"
  | .Half => "2"
  | .Double => "3"

/-- `impl TryFrom<i32> for CountdownSpeed`. -/
def CountdownSpeed.tryFrom : Int → Option CountdownSpeed
  | 0 => some .NoCountdown
  | 1 => some .Normal
  | 2 => some .Half
  | 3 => some .Double
  | _ => none

/-- Sample set used when timing points do not override it (`general.rs`). -/
inductive GSampleSet where
  | Normal | Soft | Drum
deriving DecidableEq, Repr

/-- `impl Display for SampleSet` in `general.rs`. -/
def GSampleSet.toDisplay : GSampleSet → String
  | .Normal => "Normal"
  | .Soft => "Soft"
  | .Drum => "Drum"

/-- `impl FromStr for SampleSet` in `general.rs`. -/
def GSampleSet.fromStr : String → Option GSampleSet
  | "Normal" => some .Normal
  | "Soft" => some .Soft
  | "Drum" => some .Drum
  | _ => none

/-- Game mode of the .osu file (`general.rs`). -/
inductive GameMode where
  | Osu | Taiko | Catch | Mania
deriving DecidableEq, Repr

/-- `impl Display for GameMode`. -/
def GameMode.toDisplay : GameMode → String
  | .Osu => "0"
  | .Taiko => "1"
  | .Catch => "2"
  | .Mania => "3"

/-- `impl TryFrom<i32> for GameMode`. -/
def GameMode.tryFrom : Int → Option GameMode
  | 0 => some .Osu
  | 1 => some .Taiko
  | 2 => some .Catch
  | 3 => some .Mania
  | _ => none

/-- Draw order of hit circle overlays compared to hit numbers (`general.rs`). -/
inductive OverlayPosition where
  | NoChange | Below | Above
deriving DecidableEq, Repr

/-- `impl Display for OverlayPosition`. -/
def OverlayPosition.toDisplay : OverlayPosition → String
  | .NoChange => "NoChange"
  | .Below => "Below"
  | .Above => "Above"

/-- `impl FromStr for OverlayPosition`. -/
def OverlayPosition.fromStr : String → Option OverlayPosition
  | "NoChange" => some .NoChange
  | "Below" => some .Below
  | "Above" => some .Above
  | _ => none

/-- The general section of the .osu file (`general.rs`).  `Integer` is the
repository's alias for `i32`, modelled as `Int` (its parser enforces the
`i32` range). -/
structure General where
  audio_filename : String
  audio_lead_in : Int
  audio_hash : String
  preview_time : Int
  countdown : CountdownSpeed
  sample_set : GSampleSet
  stack_leniency : Decimal
  mode : GameMode
  letterbox_in_breaks : Bool
  story_fire_in_front : Bool
  use_skin_sprites : Bool
  always_show_playfield : Bool
  overlay_position : OverlayPosition
  skin_preference : String
  epilepsy_warning : Bool
  countdown_offset : Int
  special_style : Bool
  widescreen_storyboard : Bool
  samples_match_playback_rate : Bool
deriving DecidableEq, Repr

/-- `impl Default for General`. -/
def General.default : General where
  audio_filename := ""
  audio_lead_in := 0
  audio_hash := ""
  preview_time := -1
  countdown := .Normal
  sample_set := .Normal
  stack_leniency := ⟨7, 1⟩
  mode := .Osu
  letterbox_in_breaks := false
  story_fire_in_front := true
  use_skin_sprites := false
  always_show_playfield := false
  overlay_position := .NoChange
  skin_preference := ""
  epilepsy_warning := false
  countdown_offset := 0
  special_style := false
  widescreen_storyboard := false
  samples_match_playback_rate := false

/-- Errors of `General::from_str`; the section-level error does not carry a
line number (`GeneralParseError` only wraps the key error). -/
inductive GeneralErr where
  | keyErr
deriving DecidableEq, Repr

/-- `parse_zero_one_bool` in `general.rs`: parse an `Integer`, accept only
`0` and `1`. -/
def zeroOneBool (value : String) : Option Bool :=
  match i32FromStr value with
  | some 0 => some false
  | some 1 => some true
  | _ => none

/-- One `key: value` line of the `General` body (`general.rs` `from_str`
loop body): split at the first `:`, trim the value, dispatch on the trimmed
key.  The `AudioLeadIn` arm is written `value.parse().unwrap_err()` in the
source, which is ill-typed as written (the file cannot compile); it is
translated as the integer parse of the neighbouring `PreviewTime` and
`CountdownOffset` arms, which the tests confirm. -/
def General.applyLine (g : General) (line : String) : Except GeneralErr General :=
  match splitOnce ':' line with
  | none => .error .keyErr
  | some (key, value) =>
    let value := rustTrim value
    match rustTrim key with
    | "AudioFilename" => .ok { g with audio_filename := value }
    | "AudioLeadIn" =>
      match i32FromStr value with
      | some v => .ok { g with audio_lead_in := v }
      | none => .error .keyErr
    | "AudioHash" => .ok { g with audio_hash := value }
    | "PreviewTime" =>
      match i32FromStr value with
      | some v => .ok { g with preview_time := v }
      | none => .error .keyErr
    | "Countdown" =>
      match i32FromStr value with
      | some v =>
        match CountdownSpeed.tryFrom v with
        | some c => .ok { g with countdown := c }
        | none => .error .keyErr
      | none => .error .keyErr
    | "SampleSet" =>
      match GSampleSet.fromStr value with
      | some v => .ok { g with sample_set := v }
      | none => .error .keyErr
    | "StackLeniency" =>
      match Decimal.fromStr value with
      | some v => .ok { g with stack_leniency := v }
      | none => .error .keyErr
    | "Mode" =>
      match i32FromStr value with
      | some v =>
        match GameMode.tryFrom v with
        | some m => .ok { g with mode := m }
        | none => .error .keyErr
      | none => .error .keyErr
    | "LetterboxInBreaks" =>
      match zeroOneBool value with
      | some b => .ok { g with letterbox_in_breaks := b }
      | none => .error .keyErr
    | "StoryFireInFront" =>
      match zeroOneBool value with
      | some b => .ok { g with story_fire_in_front := b }
      | none => .error .keyErr
    | "UseSkinSprites" =>
      match zeroOneBool value with
      | some b => .ok { g with use_skin_sprites := b }
      | none => .error .keyErr
    | "AlwaysShowPlayfield" =>
      match zeroOneBool value with
      | some b => .ok { g with always_show_playfield := b }
      | none => .error .keyErr
    | "OverlayPosition" =>
      match OverlayPosition.fromStr value with
      | some v => .ok { g with overlay_position := v }
      | none => .error .keyErr
    | "SkinPreference" => .ok { g with skin_preference := value }
    | "EpilepsyWarning" =>
      match zeroOneBool value with
      | some b => .ok { g with epilepsy_warning := b }
      | none => .error .keyErr
    | "CountdownOffset" =>
      match i32FromStr value with
      | some v => .ok { g with countdown_offset := v }
      | none => .error .keyErr
    | "SpecialStyle" =>
      match zeroOneBool value with
      | some b => .ok { g with special_style := b }
      | none => .error .keyErr
    | "WidescreenStoryboard" =>
      match zeroOneBool value with
      | some b => .ok { g with widescreen_storyboard := b }
      | none => .error .keyErr
    | "SamplesMatchPlaybackRate" =>
      match zeroOneBool value with
      | some b => .ok { g with samples_match_playback_rate := b }
      | none => .error .keyErr
    | _ => .error .keyErr

/-- Fold `General.applyLine` over the lines. -/
def General.applyLines (g : General) : List String → Except GeneralErr General
  | [] => .ok g
  | line :: rest =>
    match General.applyLine g line with
    | .ok g => General.applyLines g rest
    | .error e => .error e

/-- `impl FromStr for General`: start from the default, trim the body,
process each line. -/
def General.fromStr (s : String) : Except GeneralErr General :=
  General.applyLines General.default (rustLines (rustTrim s))

/-- Rust `bool as Integer`, used by `General`'s `Display`. -/
def boolToInteger (b : Bool) : String := if b then "1" else "0"

/-- `impl Display for General` (`general.rs`): all nineteen `key: value`
lines, in fixed order, joined by `\r\n`; booleans display as `0`/`1`. -/
def General.toDisplay (g : General) : String :=
  String.intercalate "\r\n"
    [ "AudioFilename: " ++ g.audio_filename
    , "AudioLeadIn: " ++ g.audio_lead_in.repr
    , "AudioHash: " ++ g.audio_hash
    , "PreviewTime: " ++ g.preview_time.repr
    , "Countdown: " ++ g.countdown.toDisplay
    , "SampleSet: " ++ g.sample_set.toDisplay
    , "StackLeniency: " ++ g.stack_leniency.toDisplay
    , "Mode: " ++ g.mode.toDisplay
    , "LetterboxInBreaks: " ++ boolToInteger g.letterbox_in_breaks
    , "StoryFireInFront: " ++ boolToInteger g.story_fire_in_front
    , "UseSkinSprites: " ++ boolToInteger g.use_skin_sprites
    , "AlwaysShowPlayfield: " ++ boolToInteger g.always_show_playfield
    , "OverlayPosition: " ++ g.overlay_position.toDisplay
    , "SkinPreference: " ++ g.skin_preference
    , "EpilepsyWarning: " ++ boolToInteger g.epilepsy_warning
    , "CountdownOffset: " ++ g.countdown_offset.repr
    , "SpecialStyle: " ++ boolToInteger g.special_style
    , "WidescreenStoryboard: " ++ boolToInteger g.widescreen_storyboard
    , "SamplesMatchPlaybackRate: " ++ boolToInteger g.samples_match_playback_rate
    ]

/-! ## Colours section (`src/osu_file/colours/`) -/

/-- Modelled from the spec: `MIN_VERSION` (defined in the absent
`types.rs`).  The supported closed version range is 3..=14, as witnessed by
the per-version dispatch arms `3 ..= 14` in `mod.rs` and spec §9 ("versions
3–13 are declared", latest 14). -/
def MIN_VERSION : Nat := 3

/-- Modelled from the spec: `LATEST_VERSION` (defined in the absent
`types.rs`); see `MIN_VERSION`. -/
def LATEST_VERSION : Nat := 14

/-- nom `space0`: zero or more spaces or tabs. -/
def space0 (cs : List Char) : List Char :=
  (span2 (fun c => c = ' ' ∨ c = '\t') cs).2

/-- nom `digit1` followed by the `u8` conversion of `byte()` in `types.rs`
(`map_res(digit1, |s| s.parse())`): take one or more digits and require the
value to fit in a `u8`. -/
def byteP (cs : List Char) : Option (Nat × List Char) :=
  let (ds, rest) := span2 Char.isDigit cs
  if ds = [] then none
  else if digitsVal ds ≤ 255 then some (digitsVal ds, rest) else none

/-- RGB colour with an optional alpha, `colours/types.rs`. -/
structure Rgb where
  red : Nat
  green : Nat
  blue : Nat
  alpha : Option Nat
deriving DecidableEq, Repr

instance : Inhabited Rgb := ⟨⟨0, 0, 0, none⟩⟩

/-- `ParseRgbError` contexts used in `Rgb::from_str` (the defining
`colours/error.rs` is absent from `src/`; the variants are the ones the
parser names). -/
inductive RgbErr where
  | InvalidRed | MissingGreen | InvalidGreen | MissingBlue | InvalidBlue
deriving DecidableEq, Repr

/-- `impl VersionedFromStr for Rgb` (`colours/types.rs`): red, green, blue
bytes separated by commas with optional surrounding spaces, then an
optional `,alpha` whose value is the whole remaining input parsed as `u8`
(`consume_rest_type`, absent from `src/parsers.rs`, modelled from spec §4.2
as "consume remainder of field as type T").  A failing alpha backtracks
(`opt`), and any leftover input is ignored by the caller.  The version
parameter is ignored by the source. -/
def Rgb.fromStr (s : String) (_version : Nat) : Except RgbErr (Option Rgb) :=
  let cs := space0 s.data
  match byteP cs with
  | none => .error .InvalidRed
  | some (red, cs) =>
    match space0 cs with
    | ',' :: cs =>
      let cs := space0 cs
      match byteP cs with
      | none => .error .InvalidGreen
      | some (green, cs) =>
        match space0 cs with
        | ',' :: cs =>
          let cs := space0 cs
          match byteP cs with
          | none => .error .InvalidBlue
          | some (blue, cs) =>
            let alpha := match space0 cs with
              | ',' :: cs => u8FromStr (String.mk (space0 cs))
              | _ => none
            .ok (some ⟨red, green, blue, alpha⟩)
        | _ => .error .MissingBlue
    | _ => .error .MissingGreen

/-- `impl VersionedToString for Rgb` (`colours/types.rs`): always
`"red,green,blue"`; the alpha component is never emitted and the version is
ignored. -/
def Rgb.toString (rgb : Rgb) (_version : Nat) : Option String :=
  some (Nat.repr rgb.red ++ "," ++ Nat.repr rgb.green ++ "," ++ Nat.repr rgb.blue)

/-- A single line of the `Colours` section (`colours/mod.rs`). -/
inductive Colour where
  | Combo : Int → Rgb → Colour
  | SliderTrackOverride : Rgb → Colour
  | SliderBorder : Rgb → Colour
deriving DecidableEq, Repr

/-- `ColourParseError` variants, the contexts named in `Colour::from_str`
(the defining `colours/error.rs` is absent from `src/`). -/
inductive ColourErr where
  | InvalidComboCount | InvalidColonSeparator | UnknownColourType
deriving DecidableEq, Repr

/-- First-attempt outcome of the `alt` in `Colour::from_str`: success, a
`cut` failure inside `rgb()` carrying the sub-slice recorded with the
`rgb_parse_error` context, or another failure whose `VerboseError` holds no
`rgb_parse_error` context. -/
inductive ColourCore where
  | ok : Colour → ColourCore
  | rgbCut : List Char → RgbErr → ColourCore
  | failc : ColourErr → ColourCore
deriving DecidableEq, Repr

/-- The separator `(space0, tag(":"), space0)` of `Colour::from_str`. -/
def sepP (cs : List Char) : Option (List Char) :=
  match space0 cs with
  | ':' :: cs => some (space0 cs)
  | _ => none

/-- The `alt((combo, slide_track_override, slider_border, fail))` body of
`Colour::from_str` (`colours/mod.rs`), with nom `cut` semantics: once a
branch's tag has matched, its later failures abort the whole `alt`.
`combo_count` is `digit1` parsed as `i32`.  An `rgb()` failure is recorded
as `rgbCut` with the sub-slice the `rgb_parse_error` context points at. -/
def colourCore (s : String) (version : Nat) : ColourCore :=
  let cs := s.data
  match tagP "Combo".data cs with
  | some cs =>
    let (ds, cs) := span2 Char.isDigit cs
    if ds = [] ∨ digitsVal ds > 2147483647 then .failc .InvalidComboCount
    else
      match sepP cs with
      | none => .failc .InvalidColonSeparator
      | some cs =>
        match Rgb.fromStr (String.mk cs) version with
        | .ok rgb => .ok (.Combo (digitsVal ds) rgb.get!)
        | .error e => .rgbCut cs e
  | none =>
  match tagP "SliderTrackOverride".data cs with
  | some cs =>
    match sepP cs with
    | none => .failc .InvalidColonSeparator
    | some cs =>
      match Rgb.fromStr (String.mk cs) version with
      | .ok rgb => .ok (.SliderTrackOverride rgb.get!)
      | .error e => .rgbCut cs e
  | none =>
  match tagP "SliderBorder".data cs with
  | some cs =>
    match sepP cs with
    | none => .failc .InvalidColonSeparator
    | some cs =>
      match Rgb.fromStr (String.mk cs) version with
      | .ok rgb => .ok (.SliderBorder rgb.get!)
      | .error e => .rgbCut cs e
  | none => .failc .UnknownColourType

/-- Result of `Colour::from_str`: `Ok(Some(colour))`, a typed error, or a
panic. -/
inductive ColourRes where
  | ok : Option Colour → ColourRes
  | err : ColourErr → ColourRes
  | panics : ColourRes
deriving DecidableEq, Repr

/-- `impl VersionedFromStr for Colour` (`colours/mod.rs`): run the `alt`;
on an error whose `VerboseError` contains the `rgb_parse_error` context,
re-parse the recorded sub-slice as a whole `Colour` at `MIN_VERSION` and
return `unwrap_err()` of that re-parse — which panics when the sub-slice
parses successfully.  The recursion is on a strict suffix of the input
(the sub-slice follows a nonempty matched prefix), so fuel `s.length + 1`
never runs out; fuel 0 is an unreachable guard. -/
def colourFromStrFuel : Nat → String → Nat → ColourRes
  | 0, _, _ => .panics
  | fuel + 1, s, version =>
    match colourCore s version with
    | .ok c => .ok (some c)
    | .failc e => .err e
    | .rgbCut i _ =>
      match colourFromStrFuel fuel (String.mk i) MIN_VERSION with
      | .ok _ => .panics
      | .err e => .err e
      | .panics => .panics

/-- `Colour::from_str` entry point. -/
def Colour.fromStr (s : String) (version : Nat) : ColourRes :=
  colourFromStrFuel (s.length + 1) s version

/-- `impl VersionedToString for Colour` (`colours/mod.rs`). -/
def Colour.toDisplay (c : Colour) (version : Nat) : Option String :=
  match c with
  | .Combo num rgb => some ("Combo" ++ num.repr ++ " : " ++ ((Rgb.toString rgb version).getD ""))
  | .SliderTrackOverride rgb =>
    some ("SliderTrackOverride : " ++ ((Rgb.toString rgb version).getD ""))
  | .SliderBorder rgb => some ("SliderBorder : " ++ ((Rgb.toString rgb version).getD ""))

/-- The `Colours` section: a list of colour lines (`colours/mod.rs`). -/
structure Colours where
  colours : List Colour
deriving DecidableEq, Repr

/-- Result of `Colours::from_str`: the error carries the 0-based line index
passed to `Error::new_from_result_into`. -/
inductive ColoursRes where
  | ok : Option Colours → ColoursRes
  | err : ColourErr → Nat → ColoursRes
  | panics : ColoursRes
deriving DecidableEq, Repr

/-- The line loop of `Colours::from_str`: parse each nonempty line, keep
the 0-based line index for errors, propagate a panic. -/
def coloursLines (version : Nat) : List String → Nat → List Colour → ColoursRes
  | [], _, acc => .ok (some ⟨acc.reverse⟩)
  | line :: rest, idx, acc =>
    if line = "" then coloursLines version rest (idx + 1) acc
    else
      match Colour.fromStr line version with
      | .ok (some c) => coloursLines version rest (idx + 1) (c :: acc)
      | .ok none => coloursLines version rest (idx + 1) acc
      | .err e => .err e idx
      | .panics => .panics

/-- `impl VersionedFromStr for Colours` (`colours/mod.rs`): versions
`MIN_VERSION ..= 4` yield `Ok(None)`; otherwise every nonempty line is
parsed as a `Colour`. -/
def Colours.fromStr (s : String) (version : Nat) : ColoursRes :=
  if MIN_VERSION ≤ version ∧ version ≤ 4 then .ok none
  else coloursLines version (rustLines s) 0 []

/-- `impl VersionedToString for Colours` (`colours/mod.rs`): `None` for
versions `MIN_VERSION ..= 4`, otherwise the lines joined by `\n`. -/
def Colours.toString (c : Colours) (version : Nat) : Option String :=
  if MIN_VERSION ≤ version ∧ version ≤ 4 then none
  else some (String.intercalate "\n" (c.colours.filterMap (fun x => Colour.toDisplay x version)))

/-- `impl VersionedDefault for Colours` (`colours/mod.rs`). -/
def Colours.defaultFor (version : Nat) : Option Colours :=
  if MIN_VERSION ≤ version ∧ version ≤ 4 then none
  else some ⟨[]⟩

/-! ## Top-level document (`src/osu_file/mod.rs`)

The sibling sections Editor, Metadata, Difficulty, Events, TimingPoints and
HitObjects have no implementation under `src/` (their modules are absent);
spec §1 declares them out of scope, individually simple sections behind the
same contract.  Each is modelled from the spec as an opaque carrier of its
raw body text: parsing stores the body, serializing returns it.  `General`
and `Colours` use the real embedded code above. -/

/-- Modelled from the spec: an out-of-scope sibling section (§1, §6),
represented by its raw body text. -/
structure RawSection where
  body : String
deriving DecidableEq, Repr

/-- `ParseError` of `mod.rs`, restricted to the variants reachable from
`OsuFile::from_str`; all wrapped per-section errors are collapsed into
`SectionError`, and `Panicked` marks a Rust panic escaping from a section
parser (the `unwrap_err` slip in `Colour::from_str`). -/
inductive ParseError where
  | InvalidFileVersion
  | FileVersionDefinedWrong
  | FileVersionInWrongLine
  | DuplicateSections
  | UnknownSection
  | SectionError
  | Panicked
deriving DecidableEq, Repr

/-- `Error<ParseError>` (defined in the absent `types.rs`): the error kind
together with the line value passed to `Error::new`; plain `From`
conversions (`err.into()`) carry line 0. -/
structure OsuError where
  kind : ParseError
  line : Nat
deriving DecidableEq, Repr

/-- An `.osu` file (`mod.rs`): format version and one optional field per
section. -/
structure OsuFile where
  version : Nat
  general : Option General
  editor : Option RawSection
  metadata : Option RawSection
  difficulty : Option RawSection
  events : Option RawSection
  timing_points : Option RawSection
  colours : Option Colours
  hitobjects : Option RawSection
deriving DecidableEq, Repr

/-- `OsuFile::new()`: all sections absent, latest version. -/
def OsuFile.new : OsuFile :=
  ⟨LATEST_VERSION, none, none, none, none, none, none, none, none⟩

/-- One section of the `many0(section)` loop in `OsuFile::from_str`:
`(multispace0, delimited('[', take_till(']' | '\r' | '\n'), ']'),
multispace0, take_till('['))`. -/
def sectionP (cs : List Char) :
    Option ((List Char × List Char × List Char × List Char) × List Char) :=
  let (ws, r) := multispace0 cs
  match r with
  | '[' :: r =>
    let (name, r) := takeTill (fun c => c = ']' ∨ c = '\r' ∨ c = '\n') r
    match r with
    | ']' :: r =>
      let (ws2, r) := multispace0 r
      let (body, r) := takeTill (fun c => c = '[') r
      some ((ws, name, ws2, body), r)
    | _ => none
  | _ => none

/-- nom `many0(section)`: repeat until failure, leftover input discarded
(the source unwraps and drops it).  Every successful `sectionP` consumes at
least the `[` of the header, so fuel `cs.length + 1` never runs out. -/
def many0Section : Nat → List Char → List (List Char × List Char × List Char × List Char)
  | 0, _ => []
  | fuel + 1, cs =>
    match sectionP cs with
    | none => []
    | some (sec, rest) => sec :: many0Section fuel rest

/-- Parser state of the section loop in `OsuFile::from_str`. -/
structure SectionState where
  general : Option General
  editor : Option RawSection
  metadata : Option RawSection
  difficulty : Option RawSection
  events : Option RawSection
  timing_points : Option RawSection
  colours : Option Colours
  hitobjects : Option RawSection
  parsed : List String
  line : Nat
deriving Repr

/-- Initial section-loop state: nothing parsed, `line_number = 1`. -/
def SectionState.init : SectionState :=
  ⟨none, none, none, none, none, none, none, none, [], 1⟩

/-- The body of the `for (ws, section_name, ws2, section) in sections` loop
in `OsuFile::from_str`: advance the line counter over the leading
whitespace, reject duplicate and unknown section names, dispatch the body
to the section parser (wrapping its error at `section_start_line` as
`Error::processing_line` does), then advance over `ws2` and the body. -/
def processSection (version : Nat) (st : SectionState)
    (sec : List Char × List Char × List Char × List Char) :
    Except OsuError SectionState :=
  let (ws, nameL, ws2, bodyL) := sec
  let name := String.mk nameL
  let body := String.mk bodyL
  let line := st.line + countLinesL ws
  if st.parsed.any (fun x => decide (x = name)) then .error ⟨.DuplicateSections, line⟩
  else
    let sectionNameLine := line
    let sectionStartLine := line + 1
    let line := line + countLinesL ws2
    let st := { st with line := line }
    let next : Except OsuError SectionState :=
      match name with
      | "General" =>
        match General.fromStr body with
        | .ok g => .ok { st with general := some g }
        | .error _ => .error ⟨.SectionError, sectionStartLine⟩
      | "Editor" => .ok { st with editor := some ⟨body⟩ }
      | "Metadata" => .ok { st with metadata := some ⟨body⟩ }
      | "Difficulty" => .ok { st with difficulty := some ⟨body⟩ }
      | "Events" => .ok { st with events := some ⟨body⟩ }
      | "TimingPoints" => .ok { st with timing_points := some ⟨body⟩ }
      | "Colours" =>
        match Colours.fromStr body version with
        | .ok c => .ok { st with colours := c }
        | .err _ idx => .error ⟨.SectionError, sectionStartLine + idx⟩
        | .panics => .error ⟨.Panicked, 0⟩
      | "HitObjects" => .ok { st with hitobjects := some ⟨body⟩ }
      | _ => .error ⟨.UnknownSection, sectionNameLine⟩
    match next with
    | .error e => .error e
    | .ok st =>
      .ok { st with parsed := st.parsed ++ [name], line := st.line + countLinesL bodyL }

/-- Fold `processSection` over the parsed section list. -/
def processSections (version : Nat) (st : SectionState) :
    List (List Char × List Char × List Char × List Char) → Except OsuError SectionState
  | [] => .ok st
  | sec :: rest =>
    match processSection version st sec with
    | .ok st => processSections version st rest
    | .error e => .error e

/-- Whether the input starts with `\n` or `\r\n`, the check deciding
`FileVersionInWrongLine` in `OsuFile::from_str`. -/
def startsNl (cs : List Char) : Bool :=
  match cs with
  | '\n' :: _ => true
  | '\r' :: '\n' :: _ => true
  | _ => false

/-- `impl FromStr for OsuFile` (`mod.rs`): parse the
`osu file format v<N>` line (`trailing_ws`, absent from `src/parsers.rs`,
is modelled as `terminated(inner, multispace0)`, the counterpart of the
present `leading_ws`); classify a failure as `FileVersionInWrongLine` when
the input starts with a newline, `FileVersionDefinedWrong` when the tag was
not matched, `InvalidFileVersion` when the `u8` conversion failed; reject
versions outside `MIN_VERSION ..= LATEST_VERSION`; then split and process
the sections. -/
def OsuFile.fromStr (s : String) : Except OsuError OsuFile :=
  let cs := s.data
  match tagP "osu file format v".data cs with
  | none =>
    .error ⟨if startsNl cs then .FileVersionInWrongLine else .FileVersionDefinedWrong, 0⟩
  | some rest =>
    let (verStr, rest) := takeTill (fun c => c = '\r' ∨ c = '\n') rest
    let (_, rest) := multispace0 rest
    match u8FromStr (String.mk verStr) with
    | none =>
      .error ⟨if startsNl cs then .FileVersionInWrongLine else .InvalidFileVersion, 0⟩
    | some version =>
      if ¬ (MIN_VERSION ≤ version ∧ version ≤ LATEST_VERSION) then
        .error ⟨.InvalidFileVersion, 0⟩
      else
        match processSections version SectionState.init (many0Section (rest.length + 1) rest) with
        | .error e => .error e
        | .ok st =>
          .ok ⟨version, st.general, st.editor, st.metadata, st.difficulty, st.events,
            st.timing_points, st.colours, st.hitobjects⟩

/-- `general.to_string_v14()` as called by `OsuFile`'s `Display`; the
per-version method is absent from `src/`, and the only `General` serializer
under `src/` is its `Display` implementation, used here. -/
def General.toStringV14 (g : General) : String := g.toDisplay

/-- `colours.to_string_v14()`: the versioned serializer at version 14
(which always yields `Some` there). -/
def Colours.toStringV14 (c : Colours) : String := (c.toString 14).getD ""

/-- `impl Display for OsuFile` (`mod.rs`): push the version header, then at
version 14 push `"[Name]\n" ++ body` for every present section in source
order, and join everything with `"\n\n"`; any other version hits
`unimplemented!` and panics. -/
def OsuFile.toDisplay (o : OsuFile) : ROut String :=
  let sections := ["osu file format v" ++ Nat.repr o.version]
  match o.version with
  | 14 =>
    let sections := sections ++
      (match o.general with
       | some g => ["[General]\n" ++ g.toStringV14]
       | none => []) ++
      (match o.editor with
       | some x => ["[Editor]\n" ++ x.body]
       | none => []) ++
      (match o.metadata with
       | some x => ["[Metadata]\n" ++ x.body]
       | none => []) ++
      (match o.difficulty with
       | some x => ["[Difficulty]\n" ++ x.body]
       | none => []) ++
      (match o.events with
       | some x => ["[Events]\n" ++ x.body]
       | none => []) ++
      (match o.timing_points with
       | some x => ["[TimingPoints]\n" ++ x.body]
       | none => []) ++
      (match o.colours with
       | some c => ["[Colours]\n" ++ c.toStringV14]
       | none => []) ++
      (match o.hitobjects with
       | some x => ["[HitObjects]\n" ++ x.body]
       | none => [])
    .returns (String.intercalate "\n\n" sections)
  | _ => .panics

/-- `to_string(parse(s))` as one function: `none` when parsing fails or
serialization panics. -/
def roundTrip (s : String) : Option String :=
  match OsuFile.fromStr s with
  | .error _ => none
  | .ok o =>
    match o.toDisplay with
    | .returns t => some t
    | .panics => none

/-! ## Hit objects (`src/osu_file/hitobject.rs`) -/

/-- `HitObjectParseError` (`hitobject.rs`): a unit error type whose
`Display` is a fixed message. -/
structure HitObjectParseError where
deriving DecidableEq, Repr

/-- Stand-in for the trait object `Box<dyn HitObject>` returned by
`parse_hitobject`; no value of it is ever produced because the function
body is `todo!()`. -/
structure HitObjectBox where
deriving DecidableEq, Repr

/-- `parse_hitobject` (`hitobject.rs`): the body is an unconditional
`todo!()`, so the call panics on every input. -/
def parse_hitobject (_hitobject : String) : ROut (Except HitObjectParseError HitObjectBox) :=
  .panics

/-! ## Storyboard Fade command, modelled from the spec

The events/storyboard module is absent from `src/` (only its tests in
`src/tests.rs` and the benchmark in `benches/bench.rs` reference it), so
the Fade command grammar is modelled from spec §4.3 and §3: a command line
`F,easing,start_time,end_time,<values>` where the keyframe-tuple list for a
one-channel command pairs consecutive values into (start, end) tuples, an
omitted `end_time` defaults to `start_time`, and an omitted end value holds
the start value. -/

/-- Modelled from the spec: one Fade keyframe tuple — a start opacity and
an optional end opacity (§3 "Keyframe tuple"). -/
structure Opacities where
  start : Decimal
  endOpacity : Option Decimal
deriving DecidableEq, Repr

/-- Modelled from the spec: pair consecutive keyframe values into
(start, end) tuples for a one-channel command; a trailing lone value is a
tuple whose omitted end value defaults to its start value (§4.3, §3). -/
def chunkOpacities : List Decimal → List Opacities
  | [] => []
  | [v] => [⟨v, some v⟩]
  | v1 :: v2 :: rest => ⟨v1, some v2⟩ :: chunkOpacities rest

/-- Modelled from the spec: a parsed Fade command (§3 "Command"): easing
identifier 0–34, required start time, optional end time, non-empty keyframe
tuple list. -/
structure FadeCommand where
  easing : Nat
  start_time : Int
  end_time : Option Int
  opacities : List Opacities
deriving DecidableEq, Repr

/-- Modelled from the spec: parse one Fade command line
`F,easing,start_time,end_time,<keyframes>` (§4.3): dispatch on the `F`
discriminator, easing must be one of the enumerated identifiers 0–34, an
empty `end_time` field defaults to the start time, the keyframe values are
decimals and at least one must be present. -/
def Fade.fromStr (s : String) : Option FadeCommand :=
  match (splitCharL ',' s.data).map String.mk with
  | "F" :: easing :: startTime :: endTime :: vals =>
    match u8FromStr easing, i32FromStr startTime with
    | some e, some st =>
      if e ≤ 34 then
        let et := if endTime = "" then some st else i32FromStr endTime
        match et, vals.mapM Decimal.fromStr with
        | some et, some ds =>
          if ds = [] then none
          else some ⟨e, st, some et, chunkOpacities ds⟩
        | _, _ => none
      else none
    | _, _ => none
  | _ => none

/-! ## Spec-side serialization description (for claim C6)

`specSectionPairs`/`specSerializeV14` follow the words of the spec ("the
version header line, then each present section as `[Name]\n<section-body>`,
joined by a blank line, in canonical section order"); they are compared
with the source-translated `OsuFile.toDisplay`. -/

/-- The canonical section sequence with each section's own serialized body,
`none` for an absent section (spec §4.6 wording). -/
def specSectionPairs (o : OsuFile) : List (String × Option String) :=
  [ ("General", o.general.map General.toStringV14)
  , ("Editor", o.editor.map RawSection.body)
  , ("Metadata", o.metadata.map RawSection.body)
  , ("Difficulty", o.difficulty.map RawSection.body)
  , ("Events", o.events.map RawSection.body)
  , ("TimingPoints", o.timing_points.map RawSection.body)
  , ("Colours", o.colours.map Colours.toStringV14)
  , ("HitObjects", o.hitobjects.map RawSection.body)
  ]

/-- Spec §4.6 serialization at version 14: header line, then every present
section rendered `[Name]\n<body>` in canonical order, joined by a blank
line; absent sections omitted. -/
def specSerializeV14 (o : OsuFile) : String :=
  String.intercalate "\n\n"
    ("osu file format v14" ::
      (specSectionPairs o).filterMap (fun p => p.2.map (fun b => ("[" ++ p.1 ++ "]\n") ++ b)))

/-! ## Concrete documents used by the claims -/

/-- A valid version-14 document with `\n` line endings and a `General`
section giving only `AudioFilename`. -/
def sC1 : String := "osu file format v14\n\n[General]\nAudioFilename: test.mp3"

/-- What the code serializes `sC1`'s parse result to: the `General` body is
re-emitted with all nineteen keys joined by `\r\n`. -/
def canonC1 : String :=
  "osu file format v14\n\n[General]\nAudioFilename: test.mp3\r\nAudioLeadIn: 0\r\nAudioHash: \r\nPreviewTime: -1\r\nCountdown: 1\r\nSampleSet: Normal\r\nStackLeniency: 0.7\r\nMode: 0\r\nLetterboxInBreaks: 0\r\nStoryFireInFront: 1\r\nUseSkinSprites: 0\r\nAlwaysShowPlayfield: 0\r\nOverlayPosition: NoChange\r\nSkinPreference: \r\nEpilepsyWarning: 0\r\nCountdownOffset: 0\r\nSpecialStyle: 0\r\nWidescreenStoryboard: 0\r\nSamplesMatchPlaybackRate: 0"

/-- A document whose third line and fourth line are both `[General]`
headers. -/
def d3a : String := "osu file format v14\n\n[General]\n[General]"

/-- A family of documents with two `[General]` headers: the version line,
then `k + 1` line feeds, then the two headers; the second header sits on
1-based line `k + 3`. -/
def dupDoc (k : Nat) : String :=
  "osu file format v14" ++ String.mk (List.replicate (k + 1) '\n') ++ "[General]\n[General]"

/-! ## Claims -/

/-- C10: for every input string, the free function `parse_hitobject` never
returns a value: its body is an unconditional `todo!()` panic, so
hit-object parsing through this entry point has no defined result for any
input. -/
theorem C10_parse_hitobject_panics (s : String) : parse_hitobject s = .panics := rfl

/-- C9: for every `Rgb` value and every version, `Rgb::to_string` returns
`Some` of exactly `"red,green,blue"` and never emits the alpha component
even when it is `Some` — although `Rgb::from_str` accepts and stores an
optional fourth alpha component — so serializing a parsed colour line that
carried an alpha component does not reproduce the input. -/
theorem C9_rgb_alpha_not_emitted :
    (∀ (r g b : Nat) (a : Option Nat) (v : Nat),
      Rgb.toString ⟨r, g, b, a⟩ v
        = some (Nat.repr r ++ "," ++ Nat.repr g ++ "," ++ Nat.repr b)
      ∧ Rgb.toString ⟨r, g, b, a⟩ v = Rgb.toString ⟨r, g, b, none⟩ v)
    ∧ Rgb.fromStr "255,0,0,128" 14 = .ok (some ⟨255, 0, 0, some 128⟩)
    ∧ Rgb.toString ⟨255, 0, 0, some 128⟩ 14 = some "255,0,0"
    ∧ "255,0,0" ≠ "255,0,0,128" := by
  refine ⟨fun r g b a v => ⟨rfl, rfl⟩, by decide, by decide, by decide⟩

set_option maxRecDepth 100000 in
/-- C5 (code bug): the claim states that the internal re-parse of a
sub-slice in `Colour::from_str` never changes the final reported error and
never panics.  The code re-parses the RGB sub-slice as a whole `Colour` and
calls `unwrap_err()` on the result: when the sub-slice itself parses as a
valid colour line the call panics, and otherwise the specific RGB error of
the first attempt is replaced by `UnknownColourType`. -/
theorem C5_reparse_changes_outcome :
    Colour.fromStr "Combo1 : Combo2 : 255,0,0" 14 = .panics
    ∧ colourCore "Combo1 : 300,0,0" 14 = .rgbCut "300,0,0".data .InvalidRed
    ∧ Colour.fromStr "Combo1 : 300,0,0" 14 = .err .UnknownColourType := by
  refine ⟨by decide, by decide, by decide⟩

/-- C2 (spec-modelled): parsing the storyboard Fade command line
`F,0,500,1000,0,0.5` yields exactly one keyframe tuple with explicit start
opacity 0 and end opacity 0.5, and parsing `F,0,500,1000,0` (end opacity
omitted) yields one keyframe tuple with start opacity 0 and the end opacity
defaulted to the start value 0. -/
theorem C2_fade_keyframes :
    Fade.fromStr "F,0,500,1000,0,0.5"
      = some ⟨0, 500, some 1000, [⟨⟨0, 0⟩, some ⟨5, 1⟩⟩]⟩
    ∧ Fade.fromStr "F,0,500,1000,0"
      = some ⟨0, 500, some 1000, [⟨⟨0, 0⟩, some ⟨0, 0⟩⟩]⟩ := by
  refine ⟨by decide, by decide⟩

/-- C4: for every input string and every version in the closed range from
the minimum supported version 3 up to 4, `Colours::from_str` returns
`Ok(None)` — absence, never an error and never a parsed value — and
likewise `Colours::to_string` and `Colours::default` return `None` at those
versions. -/
theorem C4_colours_absent_below_5 (s : String) (c : Colours) (v : Nat)
    (h3 : MIN_VERSION ≤ v) (h4 : v ≤ 4) :
    Colours.fromStr s v = .ok none
    ∧ Colours.toString c v = none
    ∧ Colours.defaultFor v = none := by
  refine ⟨?_, ?_, ?_⟩ <;>
    simp [Colours.fromStr, Colours.toString, Colours.defaultFor, h3, h4]

/-- Witness for C4 at a concrete line, version 4. -/
theorem C4_colours_absent_below_5_witness :
    Colours.fromStr "Combo1 : 255,128,255" 4 = .ok none
    ∧ Colours.toString ⟨[]⟩ 4 = none
    ∧ Colours.defaultFor 4 = none :=
  C4_colours_absent_below_5 "Combo1 : 255,128,255" ⟨[]⟩ 4 (by decide) (by decide)

set_option maxRecDepth 100000 in
/-- C1 (counterexample): `sC1` is a valid version-14 document — parsing
succeeds — yet serializing the parse result yields `canonC1`, which differs
from `sC1`: the round-trip is not the identity on all valid inputs. -/
theorem C1_counterexample : roundTrip sC1 = some canonC1 ∧ canonC1 ≠ sC1 := by
  refine ⟨by decide, by decide⟩

set_option maxRecDepth 100000 in
/-- C1 (amended): the byte-exact round-trip holds only for inputs already
in the serializer's canonical form (General re-emitted with all nineteen
keys joined by `\r\n`, sections joined by `\n\n`): the minimal document
round-trips, and serializing a parse result is idempotent at `sC1` (its
canonical form `canonC1` round-trips to itself). -/
theorem C1_roundtrip_on_canonical_form :
    roundTrip "osu file format v14" = some "osu file format v14"
    ∧ roundTrip canonC1 = some canonC1 := by
  refine ⟨by decide, by decide⟩

set_option maxRecDepth 100000 in
/-- C3 (counterexample): on `d3a` the parse fails with `DuplicateSections`
but carries line number 2, whereas the second `[General]` header is on line
4 of the input (the first is on line 3, so the number is wrong under a
0-based reading as well). -/
theorem C3_counterexample :
    OsuFile.fromStr d3a = .error ⟨.DuplicateSections, 2⟩
    ∧ rustLines d3a = ["osu file format v14", "", "[General]", "[General]"] := by
  refine ⟨by decide, by decide⟩

set_option maxHeartbeats 4000000 in
set_option maxRecDepth 100000 in
/-- C6: for every `OsuFile` with version 14, `Display` emits the version
header line `osu file format v14` first, then each present (`Some`) section
as `[Name]\n` followed by that section's own serialized body, with the
sections joined by a blank line and ordered in the fixed canonical sequence
General, Editor, Metadata, Difficulty, Events, TimingPoints, Colours,
HitObjects — a function of the structure alone, independent of any input
order — and absent (`None`) sections are not emitted. -/
theorem C6_canonical_serialization (o : OsuFile) (h : o.version = 14) :
    o.toDisplay = .returns (specSerializeV14 o) := by
  obtain ⟨v, g, e, m, d, ev, t, c, ho⟩ := o
  change v = 14 at h
  subst h
  cases g <;> cases e <;> cases m <;> cases d <;> cases ev <;> cases t <;>
    cases c <;> cases ho <;> with_unfolding_all rfl

set_option maxRecDepth 100000 in
/-- Witness for C6 at a concrete file: only the General section present. -/
theorem C6_canonical_serialization_witness :
    OsuFile.toDisplay
        ⟨14, some General.default, none, none, none, none, none, none, none⟩
      = .returns (specSerializeV14
        ⟨14, some General.default, none, none, none, none, none, none, none⟩)
    ∧ specSerializeV14
        ⟨14, some General.default, none, none, none, none, none, none, none⟩
      = "osu file format v14\n\n[General]\n" ++ General.toStringV14 General.default :=
  ⟨C6_canonical_serialization _ rfl, by decide⟩

/-! ### Parsing lemmas used for the version-line claims -/

theorem span2_cons_pos (p : Char → Bool) (c : Char) (cs : List Char) (h : p c = true) :
    span2 p (c :: cs) = (c :: (span2 p cs).1, (span2 p cs).2) := by
  cases hs : span2 p cs with
  | mk a b => simp [span2, h, hs]

theorem span2_cons_neg (p : Char → Bool) (c : Char) (cs : List Char) (h : p c = false) :
    span2 p (c :: cs) = ([], c :: cs) := by
  simp [span2, h]

theorem span2_all_append (p : Char → Bool) (a b : List Char)
    (ha : ∀ c ∈ a, p c = true)
    (hb : b = [] ∨ ∃ d r, b = d :: r ∧ p d = false) :
    span2 p (a ++ b) = (a, b) := by
  induction a with
  | nil =>
    simp only [List.nil_append]
    rcases hb with rfl | ⟨d, r, rfl, hd⟩
    · rfl
    · exact span2_cons_neg p d r hd
  | cons c cs ih =>
    have hc : p c = true := ha c (List.mem_cons_self c cs)
    rw [List.cons_append, span2_cons_pos p c _ hc,
        ih (fun x hx => ha x (List.mem_cons_of_mem c hx))]

theorem tagP_append (t r : List Char) : tagP t (t ++ r) = some r := by
  rw [tagP, if_pos, List.drop_left]
  exact List.isPrefixOf_iff_prefix.mpr (List.prefix_append t r)

theorem tagP_not_prefix (t cs : List Char) (h : t.isPrefixOf cs = false) :
    tagP t cs = none := by
  simp [tagP, h]

theorem digit_ne_cr_lf (c : Char) (h : c.isDigit = true) : c ≠ '\r' ∧ c ≠ '\n' := by
  constructor <;> intro hh <;> subst hh <;> exact absurd h (by decide)

theorem startsNl_shape (cs : List Char) (h : startsNl cs = true) :
    (∃ r, cs = '\n' :: r) ∨ (∃ r, cs = '\r' :: '\n' :: r) := by
  unfold startsNl at h
  split at h
  · next r => exact Or.inl ⟨r, rfl⟩
  · next r => exact Or.inr ⟨r, rfl⟩
  · exact absurd h (by simp)

theorem u8FromStr_digits (l : List Char) (hne : l ≠ []) (hd : l.all Char.isDigit = true) :
    u8FromStr (String.mk l) = if digitsVal l ≤ 255 then some (digitsVal l) else none := by
  obtain ⟨c, r, rfl⟩ := List.exists_cons_of_ne_nil hne
  have hc : c.isDigit = true := by
    rw [List.all_cons, Bool.and_eq_true] at hd
    exact hd.1
  have hplus : c ≠ '+' := by
    intro hh
    subst hh
    exact absurd hc (by decide)
  unfold u8FromStr
  split
  · next r2 heq =>
    exact absurd (List.head_eq_of_cons_eq heq.symm) hplus.symm
  · next l2 heq =>
    rw [if_pos ⟨List.cons_ne_nil c r, hd⟩]

/-- C8: an input beginning with a blank line (`\n` or `\r\n`) fails with
`FileVersionInWrongLine`; an input not beginning with a newline whose text
does not start with the literal `osu file format v` (the tag contains no
newline, so this is exactly "the first line does not start with it") fails
with `FileVersionDefinedWrong`. -/
theorem C8_version_line_errors :
    (∀ s : String, startsNl s.data = true →
      OsuFile.fromStr s = .error ⟨.FileVersionInWrongLine, 0⟩)
    ∧ (∀ s : String, startsNl s.data = false →
      "osu file format v".data.isPrefixOf s.data = false →
      OsuFile.fromStr s = .error ⟨.FileVersionDefinedWrong, 0⟩) := by
  constructor
  · intro s h
    have htag : tagP "osu file format v".data s.data = none := by
      rcases startsNl_shape _ h with ⟨r, hr⟩ | ⟨r, hr⟩ <;> rw [hr] <;> rfl
    simp [OsuFile.fromStr, htag, h]
  · intro s hnl hpre
    have htag : tagP "osu file format v".data s.data = none := tagP_not_prefix _ _ hpre
    simp [OsuFile.fromStr, htag, hnl]

/-- Witness for C8 at concrete inputs. -/
theorem C8_version_line_errors_witness :
    OsuFile.fromStr "\nosu file format v14" = .error ⟨.FileVersionInWrongLine, 0⟩
    ∧ OsuFile.fromStr "hello" = .error ⟨.FileVersionDefinedWrong, 0⟩ :=
  ⟨C8_version_line_errors.1 "\nosu file format v14" (by decide),
   C8_version_line_errors.2 "hello" (by decide) (by decide)⟩

/-- C7: for every first line `osu file format v<N>` with `N` given as a
nonempty digit string whose value lies outside the supported closed range
`[MIN_VERSION, LATEST_VERSION] = [3, 14]` (whether or not it also fits in a
`u8`), and any remainder that is empty or starts with a line feed or a
carriage return, `OsuFile::from_str` fails with `InvalidFileVersion`. -/
theorem C7_invalid_version (ds tail : String)
    (hne : ds.data ≠ []) (hdig : ds.data.all Char.isDigit = true)
    (hrange : ¬ (3 ≤ digitsVal ds.data ∧ digitsVal ds.data ≤ 14))
    (htail : tail.data = [] ∨ tail.data.head? = some '\n' ∨ tail.data.head? = some '\r') :
    OsuFile.fromStr ("osu file format v" ++ ds ++ tail) = .error ⟨.InvalidFileVersion, 0⟩ := by
  have hdata : ("osu file format v" ++ ds ++ tail).data
      = "osu file format v".data ++ (ds.data ++ tail.data) := by
    cases ds with
    | mk l => cases tail with
      | mk m => rfl
  have hstart : startsNl ("osu file format v".data ++ (ds.data ++ tail.data)) = false := rfl
  have htake : takeTill (fun c => c = '\r' ∨ c = '\n') (ds.data ++ tail.data)
      = (ds.data, tail.data) := by
    unfold takeTill
    apply span2_all_append
    · intro c hcm
      have hcd : c.isDigit = true := List.all_eq_true.mp hdig c hcm
      obtain ⟨h1, h2⟩ := digit_ne_cr_lf c hcd
      simp [h1, h2]
    · rcases htail with h | h | h
      · exact Or.inl h
      all_goals
        cases htail0 : tail.data with
        | nil => rw [htail0] at h; exact absurd h (by simp)
        | cons d r =>
          rw [htail0] at h
          simp only [List.head?_cons, Option.some.injEq] at h
          exact Or.inr ⟨d, r, rfl, by simp [h]⟩
  simp only [OsuFile.fromStr, hdata, tagP_append, htake]
  cases hms : multispace0 tail.data with
  | mk w rest2 =>
    rw [u8FromStr_digits ds.data hne hdig]
    by_cases h255 : digitsVal ds.data ≤ 255
    · rw [if_pos h255]
      have hr2 : ¬ (MIN_VERSION ≤ digitsVal ds.data ∧ digitsVal ds.data ≤ LATEST_VERSION) :=
        hrange
      simp [hr2]
    · rw [if_neg h255]
      simp [startsNl]

/-- Witness for C7: version 2 with empty remainder. -/
theorem C7_invalid_version_witness :
    OsuFile.fromStr ("osu file format v" ++ "2" ++ "") = .error ⟨.InvalidFileVersion, 0⟩ :=
  C7_invalid_version "2" "" (by decide) (by decide) (by decide) (Or.inl rfl)

/-- C3 (amended): a document with two `[General]` headers fails with
`DuplicateSections`, but the carried line number counts only the lines of
inter-section whitespace and section bodies starting from 1: the newlines
consumed together with the version line are never counted, so for the
family `dupDoc k` (version line, `k + 1` line feeds, two adjacent headers)
the error always carries line 2 while the second header really sits on line
`k + 3` (the document has `k + 2` line feeds, all before the second
header). -/
theorem C3_duplicate_line_number (k : Nat) :
    OsuFile.fromStr (dupDoc k) = .error ⟨.DuplicateSections, 2⟩
    ∧ (dupDoc k).data.count '\n' = k + 2 := by
  have hdata : (dupDoc k).data = "osu file format v".data ++
      (['1', '4'] ++ (List.replicate (k + 1) '\n' ++ "[General]\n[General]".data)) := by
    rfl
  constructor
  · have htake : takeTill (fun c => c = '\r' ∨ c = '\n')
        (['1', '4'] ++ (List.replicate (k + 1) '\n' ++ "[General]\n[General]".data))
        = (['1', '4'], List.replicate (k + 1) '\n' ++ "[General]\n[General]".data) := by
      unfold takeTill
      apply span2_all_append
      · intro c hcm
        simp only [List.mem_cons, List.not_mem_nil, or_false] at hcm
        rcases hcm with rfl | rfl <;> decide
      · exact Or.inr ⟨'\n', List.replicate k '\n' ++ "[General]\n[General]".data,
          by rw [List.replicate_succ, List.cons_append], by decide⟩
    have hms : multispace0 (List.replicate (k + 1) '\n' ++ "[General]\n[General]".data)
        = (List.replicate (k + 1) '\n', "[General]\n[General]".data) := by
      unfold multispace0
      apply span2_all_append
      · intro c hcm
        rw [List.eq_of_mem_replicate hcm]
        decide
      · exact Or.inr ⟨'[', "General]\n[General]".data, rfl, by decide⟩
    simp only [OsuFile.fromStr, hdata, tagP_append, htake, hms,
      (by decide : u8FromStr (String.mk ['1', '4']) = some (14 : Nat))]
    rw [if_neg (by decide : ¬ ¬ (MIN_VERSION ≤ (14 : Nat) ∧ (14 : Nat) ≤ LATEST_VERSION))]
    decide
  · rw [hdata]
    have c1 : "osu file format v".data.count '\n' = 0 := by decide
    have c2 : (['1', '4'] : List Char).count '\n' = 0 := by decide
    have c3 : "[General]\n[General]".data.count '\n' = 1 := by decide
    have c4 : (List.replicate (k + 1) '\n').count '\n' = k + 1 :=
      List.count_replicate_self '\n' (k + 1)
    simp only [List.count_append, c1, c2, c3, c4]
    omega

end OsuVerify
